import Mathlib

/-!
Shallow embedding of the mixoads-backend-assignment sync service
(src/config.ts, src/index.ts, src/services/api.ts, src/services/sync.ts).

Time is modelled in milliseconds as `Nat` (for the rate limiter, where all
quantities are nonnegative) and `Int` (for token expiry arithmetic, which in
JS may go negative).  `setTimeout`-based sleeps are modelled as advancing the
clock by exactly the requested duration.
-/

namespace Mixoads

/-! ## Rate limiter (`AdPlatformClient.enforceRateLimit`, api.ts lines 34-45)

`enforceRateLimit` reads `now = Date.now()`, sleeps
`minRequestInterval - (now - lastRequestTime)` ms when the gap is too small,
and then stores `Date.now()` into `lastRequestTime`.  The stored timestamp is
the instant at which the outbound request is issued (both `getAccessToken` and
`request` call `enforceRateLimit` immediately before their `fetch`).  The
function below returns the new `lastRequestTime` given the previous one and
the instant `now` at which it was invoked. -/

def enforceRateLimit (minInterval last now : Nat) : Nat :=
  if now - last < minInterval then now + (minInterval - (now - last)) else now

/-- The sequence of recorded request-start times produced by successive
invocations of `enforceRateLimit`, one per outbound call, where `arrivals`
lists the instant each invocation happens. -/
def rateLimitTrace (minInterval : Nat) : Nat → List Nat → List Nat
  | _, [] => []
  | last, a :: rest =>
    enforceRateLimit minInterval last a :: rateLimitTrace minInterval (enforceRateLimit minInterval last a) rest

/-- Calls are sequential: each invocation of `enforceRateLimit` happens no
earlier than the timestamp the previous invocation recorded (the previous call
had already been issued by then, and clocks are monotone). -/
def seqArrivals (minInterval : Nat) : Nat → List Nat → Bool
  | _, [] => true
  | last, a :: rest =>
    decide (last ≤ a) && seqArrivals minInterval (enforceRateLimit minInterval last a) rest

/-! ## Configuration (`src/config.ts`)

`config.ts` reads `process.env` once at load time.  An environment is a
record of the variables the file consults; `none` means the variable is
unset.  JS `a || b` treats the empty string as falsy, and
`parseInt` is modelled on decimal-digit strings (the only inputs the file
produces by construction: either the env value or the literal default). -/

structure Env where
  AD_PLATFORM_API_URL : Option String := none
  API_USERNAME : Option String := none
  API_PASSWORD : Option String := none
  DB_HOST : Option String := none
  DB_PORT : Option String := none
  DB_NAME : Option String := none
  DB_USER : Option String := none
  DB_PASSWORD : Option String := none
  USE_MOCK_DB : Option String := none

def jsOrStr (v : Option String) (d : String) : String :=
  match v with
  | some s => if s = "" then d else s
  | none => d

def jsParseInt (s : String) : Nat :=
  if s.data ≠ [] ∧ s.data.all Char.isDigit then
    s.data.foldl (fun n c => n * 10 + (c.toNat - 48)) 0
  else 0

structure ApiAuthConfig where
  email : String
  password : String
deriving DecidableEq

structure ApiConfig where
  baseUrl : String
  auth : ApiAuthConfig
  minRequestIntervalMs : Nat
  timeoutMs : Nat
  maxRetries : Nat
deriving DecidableEq

structure DbConfig where
  host : String
  port : Nat
  database : String
  user : String
  password : String
  useMock : Bool
deriving DecidableEq

structure Config where
  api : ApiConfig
  db : DbConfig
deriving DecidableEq

def config (env : Env) : Config :=
  { api :=
    { baseUrl := jsOrStr env.AD_PLATFORM_API_URL "http://localhost:3001"
      auth :=
      { email := jsOrStr env.API_USERNAME "admin@mixoads.com"
        password := jsOrStr env.API_PASSWORD "SuperSecret123!" }
      minRequestIntervalMs := 6500
      timeoutMs := 10000
      maxRetries := 3 }
    db :=
    { host := jsOrStr env.DB_HOST "localhost"
      port := jsParseInt (jsOrStr env.DB_PORT "5432")
      database := jsOrStr env.DB_NAME "mixoads"
      user := jsOrStr env.DB_USER "postgres"
      password := jsOrStr env.DB_PASSWORD "postgres"
      useMock := env.USE_MOCK_DB == some "true" } }

/-! ## Token manager (`AdPlatformClient.getAccessToken`, api.ts lines 51-91)

The client caches `accessToken : string | null` and `tokenExpiry : number`
(initially `null` / `0`).  `getAccessToken` returns the cache when
`this.accessToken && Date.now() < this.tokenExpiry` (JS truthiness: `null`
and `""` are falsy); otherwise it performs one `POST /auth/token` exchange
(itself rate-limited — covered by the rate-limiter model above) and caches
`{token, expiry = now + (expires_in || 3600) * 1000 - 30000}`.  Expiry
arithmetic uses `Int` since the JS value may go negative. -/

structure TokenState where
  accessToken : Option String
  tokenExpiry : Int
deriving DecidableEq

def initialTokenState : TokenState := ⟨none, 0⟩

structure AuthResponse where
  ok : Bool
  status : Nat
  access_token : String
  expires_in : Option Int
deriving DecidableEq

def tokenTruthy : Option String → Bool
  | none => false
  | some s => s ≠ ""

def jsOrInt (v : Option Int) (d : Int) : Int :=
  match v with
  | some n => if n = 0 then d else n
  | none => d

inductive ApiErr where
  | authFailed (status : Nat)
  | api (status : Nat)
  | network (msg : String)
  | noResponse
deriving DecidableEq

/-- One invocation of `getAccessToken` at instant `now`, with `resp` the auth
server's behaviour should an exchange be issued.  Returns the bearer token,
the new cached state and the number of authentication network calls
performed (0 or 1). -/
def getAccessToken (st : TokenState) (now : Int) (resp : AuthResponse) :
    Except ApiErr (String × TokenState × Nat) :=
  if tokenTruthy st.accessToken && decide (now < st.tokenExpiry) then
    .ok (st.accessToken.getD "", st, 0)
  else if resp.ok then
    let expiresIn := jsOrInt resp.expires_in 3600 * 1000
    .ok (resp.access_token, ⟨some resp.access_token, now + expiresIn - 30000⟩, 1)
  else
    .error (.authFailed resp.status)

/-! ## Request executor (`AdPlatformClient.request`, api.ts lines 96-189)

One attempt = obtain token, enforce rate limit, issue the fetch, classify.
The outside world supplies one `Attempt` per fetch the executor would issue:
the wall-clock instant, the auth server's behaviour (consulted only when the
cache is stale), and the HTTP outcome.  Classification mirrors the source's
order of checks: 429 first (uncapped retry, honouring `retry-after` seconds),
then `status >= 500` with `retryCount < maxRetries` (backoff
`1000 * 2^retryCount`), then 401 (always clears the token cache, retries only
while `retryCount < 2`), then `!response.ok` throws `ApiError(status)`, else
the 2xx payload is returned.  An `AbortError` timeout retries with NO sleep
while `retryCount < maxRetries`, then throws `ApiError 408`; other network
errors sleep `1000 * 2^retryCount` and retry while `retryCount < maxRetries`,
then rethrow the raw error.  `return this.request(...)` without `await`
escapes the enclosing `try`, so a recursive call's rejection propagates
unmodified.  `warns` counts `logger.warn` calls, `sleeps` lists the backoff
sleeps in order, `attemptsUsed` counts fetches issued. -/

inductive HttpOutcome (α : Type) where
  | http (status : Nat) (retryAfter : Option Nat) (payload : α)
  | timeout
  | netError (msg : String)
deriving DecidableEq

structure Attempt (α : Type) where
  now : Int
  auth : AuthResponse
  outcome : HttpOutcome α
deriving DecidableEq

structure RequestResult (α : Type) where
  result : Except ApiErr α
  finalState : TokenState
  warns : Nat
  sleeps : List Nat
  attemptsUsed : Nat

def request {α : Type} (maxRetries : Nat) :
    List (Attempt α) → TokenState → Nat → RequestResult α
  | [], st, _ => ⟨.error .noResponse, st, 0, [], 0⟩
  | a :: rest, st, rc =>
    match getAccessToken st a.now a.auth with
    | .error e => ⟨.error e, st, 0, [], 1⟩
    | .ok (_, st1, _) =>
      match a.outcome with
      | .http status retryAfter payload =>
        if status = 429 then
          let waitMs := match retryAfter with
            | some s => s * 1000
            | none => 2000 * 2 ^ rc
          let r := request maxRetries rest st1 (rc + 1)
          ⟨r.result, r.finalState, r.warns + 1, waitMs :: r.sleeps, r.attemptsUsed + 1⟩
        else if 500 ≤ status ∧ rc < maxRetries then
          let r := request maxRetries rest st1 (rc + 1)
          ⟨r.result, r.finalState, r.warns + 1, 1000 * 2 ^ rc :: r.sleeps, r.attemptsUsed + 1⟩
        else
          let st2 := if status = 401 then initialTokenState else st1
          if status = 401 ∧ rc < 2 then
            let r := request maxRetries rest st2 (rc + 1)
            ⟨r.result, r.finalState, r.warns + 1, r.sleeps, r.attemptsUsed + 1⟩
          else if ¬(200 ≤ status ∧ status < 300) then
            ⟨.error (.api status), st2, 0, [], 1⟩
          else
            ⟨.ok payload, st2, 0, [], 1⟩
      | .timeout =>
        if rc < maxRetries then
          let r := request maxRetries rest st1 (rc + 1)
          ⟨r.result, r.finalState, r.warns + 1, r.sleeps, r.attemptsUsed + 1⟩
        else
          ⟨.error (.api 408), st1, 0, [], 1⟩
      | .netError msg =>
        if rc < maxRetries then
          let r := request maxRetries rest st1 (rc + 1)
          ⟨r.result, r.finalState, r.warns + 1, 1000 * 2 ^ rc :: r.sleeps, r.attemptsUsed + 1⟩
        else
          ⟨.error (.network msg), st1, 0, [], 1⟩

/-! ## Paginator (`SyncService.fetchAllCampaigns`, sync.ts lines 58-83)

The while-loop requests page 1, 2, ... through `getCampaigns`.  If
`response && response.data` is truthy it concatenates `response.data` and then
reads `response.pagination.has_more` — a TypeError when `pagination` is
absent; otherwise it logs one warning and stops gracefully.  `server` maps a
page number to the parsed JSON body (`none` = falsy body); the loop carries
explicit fuel since the source's loop need not terminate for an arbitrary
server.  The result records the accumulated records, the pages requested in
order, and the number of warnings logged. -/

structure PaginationInfo where
  has_more : Bool
deriving DecidableEq

structure PageResponse (α : Type) where
  data : Option (List α)
  pagination : Option PaginationInfo
deriving DecidableEq

inductive FetchErr where
  | typeErrorUndefinedPagination
  | outOfFuel
deriving DecidableEq

structure FetchResult (α : Type) where
  records : List α
  requestedPages : List Nat
  warns : Nat
deriving DecidableEq

def fetchAllGo {α : Type} (server : Nat → Option (PageResponse α)) :
    Nat → Nat → List α → List Nat → Except FetchErr (FetchResult α)
  | 0, _, _, _ => .error .outOfFuel
  | fuel + 1, page, acc, trace =>
    match server page with
    | none => .ok ⟨acc, trace ++ [page], 1⟩
    | some resp =>
      match resp.data with
      | none => .ok ⟨acc, trace ++ [page], 1⟩
      | some recs =>
        match resp.pagination with
        | none => .error .typeErrorUndefinedPagination
        | some pinfo =>
          if pinfo.has_more then
            fetchAllGo server fuel (page + 1) (acc ++ recs) (trace ++ [page])
          else
            .ok ⟨acc ++ recs, trace ++ [page], 0⟩

def fetchAllCampaigns {α : Type} (server : Nat → Option (PageResponse α)) (fuel : Nat) :
    Except FetchErr (FetchResult α) :=
  fetchAllGo server fuel 1 [] []

/-! ## Orchestrator and process exit (`SyncService.start`, sync.ts lines 14-56;
`main`, index.ts lines 4-16)

`start` connects the sink, fetches all campaigns, then iterates the records;
each record's action (`syncCampaign` then `upsertCampaign`) is wrapped in a
per-record try/catch that increments `failureCount` and continues.  Fatal
errors (connect failure, pagination error) propagate out of `start`; `main`
exits 0 when `start` resolves and 1 when it rejects.  `act` gives each
record's combined per-record outcome. -/

inductive SyncError where
  | db (msg : String)
  | fetchFailed (e : FetchErr)
deriving DecidableEq

structure SyncReport where
  successCount : Nat
  failureCount : Nat
  total : Nat
deriving DecidableEq

def processLoop {α : Type} (act : α → Except String Unit) :
    List α → Nat → Nat → Nat × Nat
  | [], s, f => (s, f)
  | c :: rest, s, f =>
    match act c with
    | .ok _ => processLoop act rest (s + 1) f
    | .error _ => processLoop act rest s (f + 1)

def start {α : Type} (dbConnect : Except String Unit)
    (server : Nat → Option (PageResponse α)) (fuel : Nat)
    (act : α → Except String Unit) : Except SyncError SyncReport :=
  match dbConnect with
  | .error e => .error (.db e)
  | .ok _ =>
    match fetchAllCampaigns server fuel with
    | .error e => .error (.fetchFailed e)
    | .ok fr =>
      let counts := processLoop act fr.records 0 0
      .ok ⟨counts.1, counts.2, fr.records.length⟩

def mainExitCode (r : Except SyncError SyncReport) : Nat :=
  match r with
  | .ok _ => 0
  | .error _ => 1

/-! ## Concrete fixtures used by theorems and witnesses -/

/-- A successful `POST /auth/token` exchange: `{access_token: "token", expires_in: 3600}`. -/
def authOk : AuthResponse := ⟨true, 200, "token", some 3600⟩

/-- The token cache after one exchange against `authOk` at instant 0:
`expiry = 0 + 3600 * 1000 - 30000`. -/
def authedState : TokenState := ⟨some "token", 3570000⟩

/-- JS truthiness of a per-record action's outcome. -/
def recordOk {ε β : Type} (r : Except ε β) : Bool :=
  match r with
  | .ok _ => true
  | .error _ => false

def demoPages : Nat → List Nat := fun p => [10 * p, 10 * p + 1]

/-- A three-page mock server: pages 1..3, `has_more` exactly below page 3. -/
def demoServer : Nat → Option (PageResponse Nat) :=
  fun p => some ⟨some (demoPages p), some ⟨decide (p < 3)⟩⟩

/-! ## Theorems -/

theorem enforceRateLimit_lower (minInterval last now : Nat) (h : last ≤ now) :
    last + minInterval ≤ enforceRateLimit minInterval last now := by
  unfold enforceRateLimit
  split <;> omega

theorem enforceRateLimit_ge (minInterval last now : Nat) (h : last ≤ now) :
    last ≤ enforceRateLimit minInterval last now := by
  unfold enforceRateLimit
  split <;> omega

theorem rateLimitTrace_chain (minInterval : Nat) (as : List Nat) :
    ∀ last, seqArrivals minInterval last as = true →
      List.Chain' (fun t u => t + minInterval ≤ u) (rateLimitTrace minInterval last as) := by
  induction as with
  | nil => intro last _; simp [rateLimitTrace]
  | cons a rest ih =>
    intro last h
    simp only [seqArrivals, Bool.and_eq_true, decide_eq_true_eq] at h
    obtain ⟨hla, hrest⟩ := h
    simp only [rateLimitTrace]
    apply List.Chain'.cons'
    · exact ih _ hrest
    · intro u hu
      cases rest with
      | nil => simp [rateLimitTrace] at hu
      | cons b rest2 =>
        simp only [rateLimitTrace, List.head?_cons, Option.mem_def, Option.some.injEq] at hu
        subst hu
        simp only [seqArrivals, Bool.and_eq_true, decide_eq_true_eq] at hrest
        exact enforceRateLimit_lower _ _ _ hrest.1

/-- C1: for every sequence of outbound API calls made through
`AdPlatformClient` (authentication included — both `getAccessToken` and
`request` run `enforceRateLimit` immediately before issuing their `fetch`),
the wall-clock gap between any two consecutive recorded call-start times is at
least the configured minimum request interval. -/
theorem quota_compliance (minInterval last : Nat) (arrivals : List Nat)
    (h : seqArrivals minInterval last arrivals = true) :
    List.Chain' (fun t u => t + minInterval ≤ u) (rateLimitTrace minInterval last arrivals) :=
  rateLimitTrace_chain minInterval arrivals last h

theorem quota_compliance_witness :
    List.Chain' (fun t u => t + 6500 ≤ u) (rateLimitTrace 6500 0 [7000, 8000, 20001]) :=
  quota_compliance 6500 0 [7000, 8000, 20001] (by decide)

/-- C8 counterexample: the claim asserts that for every recognized option there
exist two environments under which the loaded config differs; for the minimum
request interval no such pair exists — `config.ts` fixes
`minRequestIntervalMs: 6500` with no `process.env` read. -/
theorem config_hardcoded_interval_counterexample :
    ¬ ∃ e1 e2 : Env,
      (config e1).api.minRequestIntervalMs ≠ (config e2).api.minRequestIntervalMs := by
  rintro ⟨e1, e2, h⟩
  exact h rfl

/-- C8 (amended): the API base URL, both credentials, and every database
connection parameter including the DB mock toggle are overridable via
environment variables, but the minimum request interval, the per-call timeout
and the max retry count are hardcoded (6500 / 10000 / 3) in `config.ts` and no
environment changes them; there is no API-layer mock toggle. -/
theorem config_env_overridability :
    (∃ e1 e2 : Env, (config e1).api.baseUrl ≠ (config e2).api.baseUrl) ∧
    (∃ e1 e2 : Env, (config e1).api.auth.email ≠ (config e2).api.auth.email) ∧
    (∃ e1 e2 : Env, (config e1).api.auth.password ≠ (config e2).api.auth.password) ∧
    (∃ e1 e2 : Env, (config e1).db.host ≠ (config e2).db.host) ∧
    (∃ e1 e2 : Env, (config e1).db.port ≠ (config e2).db.port) ∧
    (∃ e1 e2 : Env, (config e1).db.database ≠ (config e2).db.database) ∧
    (∃ e1 e2 : Env, (config e1).db.user ≠ (config e2).db.user) ∧
    (∃ e1 e2 : Env, (config e1).db.password ≠ (config e2).db.password) ∧
    (∃ e1 e2 : Env, (config e1).db.useMock ≠ (config e2).db.useMock) ∧
    (∀ e1 e2 : Env, (config e1).api.minRequestIntervalMs = (config e2).api.minRequestIntervalMs) ∧
    (∀ e1 e2 : Env, (config e1).api.timeoutMs = (config e2).api.timeoutMs) ∧
    (∀ e1 e2 : Env, (config e1).api.maxRetries = (config e2).api.maxRetries) := by
  refine ⟨⟨{}, { AD_PLATFORM_API_URL := some "http://other" }, by decide⟩,
    ⟨{}, { API_USERNAME := some "user@example.com" }, by decide⟩,
    ⟨{}, { API_PASSWORD := some "pw" }, by decide⟩,
    ⟨{}, { DB_HOST := some "dbhost" }, by decide⟩,
    ⟨{}, { DB_PORT := some "1" }, by decide⟩,
    ⟨{}, { DB_NAME := some "other" }, by decide⟩,
    ⟨{}, { DB_USER := some "alice" }, by decide⟩,
    ⟨{}, { DB_PASSWORD := some "pw" }, by decide⟩,
    ⟨{}, { USE_MOCK_DB := some "true" }, by decide⟩,
    fun _ _ => rfl, fun _ _ => rfl, fun _ _ => rfl⟩

/-- C6: a cached, unexpired access token is returned without a network call;
otherwise one authentication exchange is performed and cached with
`expiry = now + (expires_in, defaulting to 3600 s when omitted) * 1000 - 30000`;
hence two calls issued before expiry trigger exactly one exchange
(the third conjunct performs 1 + 0 authentication network calls). -/
theorem token_caching :
    (∀ (st : TokenState) (now : Int) (resp : AuthResponse),
      tokenTruthy st.accessToken = true → now < st.tokenExpiry →
      getAccessToken st now resp = .ok (st.accessToken.getD "", st, 0)) ∧
    (∀ (st : TokenState) (now : Int) (resp : AuthResponse),
      ¬(tokenTruthy st.accessToken = true ∧ now < st.tokenExpiry) → resp.ok = true →
      getAccessToken st now resp =
        .ok (resp.access_token,
          ⟨some resp.access_token, now + jsOrInt resp.expires_in 3600 * 1000 - 30000⟩, 1)) ∧
    (∀ (t1 t2 : Int) (resp resp2 : AuthResponse),
      resp.ok = true → resp.access_token ≠ "" →
      t2 < t1 + jsOrInt resp.expires_in 3600 * 1000 - 30000 →
      getAccessToken initialTokenState t1 resp =
        .ok (resp.access_token,
          ⟨some resp.access_token, t1 + jsOrInt resp.expires_in 3600 * 1000 - 30000⟩, 1) ∧
      getAccessToken ⟨some resp.access_token, t1 + jsOrInt resp.expires_in 3600 * 1000 - 30000⟩
          t2 resp2 =
        .ok (resp.access_token,
          ⟨some resp.access_token, t1 + jsOrInt resp.expires_in 3600 * 1000 - 30000⟩, 0)) := by
  refine ⟨?_, ?_, ?_⟩
  · intro st now resp h1 h2
    simp [getAccessToken, h1, h2]
  · intro st now resp h hok
    unfold getAccessToken
    rw [if_neg (by simpa using h), if_pos hok]
  · intro t1 t2 resp resp2 hok htok h2
    constructor
    · unfold getAccessToken
      rw [if_neg (by simp [initialTokenState, tokenTruthy]), if_pos hok]
    · unfold getAccessToken
      rw [if_pos (by simp [tokenTruthy, htok, h2])]
      rfl

theorem token_caching_witness :
    getAccessToken ⟨some "tok", 5000⟩ 4999 authOk = .ok ("tok", ⟨some "tok", 5000⟩, 0) ∧
    getAccessToken initialTokenState 0 authOk = .ok ("token", authedState, 1) ∧
    getAccessToken authedState 1000 authOk = .ok ("token", authedState, 0) := by
  refine ⟨?_, ?_, ?_⟩
  · exact token_caching.1 ⟨some "tok", 5000⟩ 4999 authOk (by decide) (by decide)
  · exact (token_caching.2.2 0 1000 authOk authOk rfl (by decide) (by decide)).1
  · exact (token_caching.2.2 0 1000 authOk authOk rfl (by decide) (by decide)).2

/-- C10: `fetchAllCampaigns`'s graceful stop only covers a falsy `data` field
(end-of-data plus one warning); when `data` is present but `pagination` is
absent, reading `response.pagination.has_more` faults and the error propagates,
making the whole run fatal (exit code 1). -/
theorem malformed_pagination_fatal :
    fetchAllCampaigns (fun _ => some (⟨some [1], none⟩ : PageResponse Nat)) 1 =
      .error .typeErrorUndefinedPagination ∧
    mainExitCode (start (.ok ()) (fun _ => some (⟨some [1], none⟩ : PageResponse Nat)) 1
      (fun _ => .ok ())) = 1 ∧
    fetchAllCampaigns (fun _ => some (⟨none, some ⟨true⟩⟩ : PageResponse Nat)) 1 =
      .ok ⟨[], [1], 1⟩ :=
  ⟨rfl, rfl, rfl⟩

theorem countOk_add_countFail {α : Type} (p : α → Bool) (l : List α) :
    l.countP p + l.countP (fun c => !(p c)) = l.length := by
  induction l with
  | nil => simp
  | cons c rest ih =>
    cases hc : p c <;> (simp [List.countP_cons, hc]; omega)

theorem processLoop_counts {α : Type} (act : α → Except String Unit) (l : List α) :
    ∀ s f : Nat,
      processLoop act l s f =
        (s + l.countP (fun c => recordOk (act c)),
         f + l.countP (fun c => !recordOk (act c))) := by
  induction l with
  | nil => intro s f; simp [processLoop]
  | cons c rest ih =>
    intro s f
    cases h : act c with
    | ok v =>
      simp [processLoop, h, ih, List.countP_cons, recordOk]
      all_goals omega
    | error e =>
      simp [processLoop, h, ih, List.countP_cons, recordOk]
      all_goals omega

/-- C9: with the fetched record list `camps`, each record's per-record action
outcome given by `act`, the run counts exactly the failing records in
`failureCount` and the succeeding ones in `successCount`, processes every
record (`successCount + failureCount = total = camps.length`), completes the
batch, and the process exits 0 despite per-record failures. -/
theorem per_record_failure_isolation {α : Type} (camps : List α)
    (act : α → Except String Unit) :
    start (.ok ()) (fun _ => some ⟨some camps, some ⟨false⟩⟩) 1 act =
      .ok ⟨camps.countP (fun c => recordOk (act c)),
           camps.countP (fun c => !recordOk (act c)), camps.length⟩ ∧
    camps.countP (fun c => recordOk (act c)) + camps.countP (fun c => !recordOk (act c)) =
      camps.length ∧
    mainExitCode (start (.ok ()) (fun _ => some ⟨some camps, some ⟨false⟩⟩) 1 act) = 0 := by
  refine ⟨?_, countOk_add_countFail _ camps, rfl⟩
  simp [start, fetchAllCampaigns, fetchAllGo, processLoop_counts]

theorem fetchAllGo_wellFormed {α : Type} (pages : Nat → List α) (P : Nat)
    (server : Nat → Option (PageResponse α))
    (hserver : ∀ p, 1 ≤ p → p ≤ P → server p = some ⟨some (pages p), some ⟨decide (p < P)⟩⟩) :
    ∀ (fuel page : Nat) (acc : List α) (trace : List Nat),
      1 ≤ page → page ≤ P → P + 1 - page ≤ fuel →
      fetchAllGo server fuel page acc trace =
        .ok ⟨acc ++ (List.map pages (List.range' page (P + 1 - page))).flatten,
             trace ++ List.range' page (P + 1 - page), 0⟩ := by
  intro fuel
  induction fuel with
  | zero => intro page acc trace h1 h2 h3; omega
  | succ fuel ih =>
    intro page acc trace h1 h2 h3
    have hs := hserver page h1 h2
    by_cases hlt : page < P
    · have hd : decide (page < P) = true := by simp [hlt]
      rw [show P + 1 - page = (P - page) + 1 by omega]
      simp only [fetchAllGo, hs, hd]
      rw [ih (page + 1) (acc ++ pages page) (trace ++ [page]) (by omega) (by omega) (by omega)]
      rw [show P - page = P + 1 - (page + 1) by omega] at *
      rw [show (P + 1 - (page + 1)) + 1 = (P + 1 - (page + 1)).succ from rfl, List.range'_succ]
      simp [List.append_assoc]
    · have hpage : page = P := by omega
      have hd : decide (page < P) = false := by simp [hlt]
      rw [show P + 1 - page = 1 by omega]
      simp only [fetchAllGo, hs, hd]
      simp [List.range']

/-- C2: against a well-formed server with pages 1..P (each page carrying its
records and `has_more` exactly while further pages exist, the last page
signalling `has_more = false`), `fetchAllCampaigns` returns every record of
every page exactly once in page-then-intra-page order, and the requested-page
trace is exactly `[1, ..., P]`: no page skipped, none fetched twice. -/
theorem pagination_completeness {α : Type} (pages : Nat → List α) (P fuel : Nat)
    (server : Nat → Option (PageResponse α)) (hP : 1 ≤ P) (hfuel : P ≤ fuel)
    (hserver : ∀ p, 1 ≤ p → p ≤ P → server p = some ⟨some (pages p), some ⟨decide (p < P)⟩⟩) :
    fetchAllCampaigns server fuel =
      .ok ⟨(List.map pages (List.range' 1 P)).flatten, List.range' 1 P, 0⟩ := by
  have h := fetchAllGo_wellFormed pages P server hserver fuel 1 [] []
    (le_refl 1) hP (by omega)
  rw [show P + 1 - 1 = P by omega] at h
  simpa [fetchAllCampaigns] using h

theorem pagination_completeness_witness :
    fetchAllCampaigns demoServer 3 = .ok ⟨[10, 11, 20, 21, 30, 31], [1, 2, 3], 0⟩ := by
  have h := pagination_completeness demoPages 3 3 demoServer (by decide) (by decide)
    (fun p h1 h2 => rfl)
  exact h.trans rfl

theorem request_auth_ok (st : TokenState) (now : Int) (r : AuthResponse) (h : r.ok = true) :
    ∃ tok st1 n, getAccessToken st now r = .ok (tok, st1, n) := by
  unfold getAccessToken
  by_cases hc : (tokenTruthy st.accessToken && decide (now < st.tokenExpiry)) = true
  · rw [if_pos hc]
    exact ⟨_, _, _, rfl⟩
  · rw [if_neg hc, if_pos h]
    exact ⟨_, _, _, rfl⟩

theorem request_429_drain {α : Type} (mr k : Nat) (j payload : α) :
    ∀ (st : TokenState) (rc : Nat),
      (request mr (List.replicate k ⟨0, authOk, .http 429 none j⟩ ++
        [⟨0, authOk, .http 200 none payload⟩]) st rc).result = .ok payload := by
  induction k with
  | zero =>
    intro st rc
    obtain ⟨tok, st1, n, hga⟩ := request_auth_ok st 0 authOk rfl
    simp [request, hga]
  | succ k ih =>
    intro st rc
    obtain ⟨tok, st1, n, hga⟩ := request_auth_ok st 0 authOk rfl
    simp [List.replicate_succ, request, hga, ih]

/-- C3: a run of k consecutive 429 responses followed by a 200 always ends in
the 200 payload being returned, for every k — 429 retries are not limited by
the general `maxRetries` ceiling (which is universally quantified here). -/
theorem rate_limit_never_exhausts {α : Type} (maxRetries k : Nat) (j payload : α) :
    (request maxRetries
      (List.replicate k ⟨0, authOk, .http 429 none j⟩ ++
        [⟨0, authOk, .http 200 none payload⟩])
      initialTokenState 0).result = .ok payload :=
  request_429_drain maxRetries k j payload initialTokenState 0

/-- C4: with retry ceiling 3, the response sequence 503, 503, 503, 200 yields
the 200 payload with exactly 3 logged retry warnings; a 503 on every attempt
surfaces an error (`ApiError` with status 503) after exactly `maxRetries = 3`
retries (4 fetches issued in total), retrying no further. -/
theorem retry_classification {α : Type} (payload : α) :
    ((request 3 [⟨0, authOk, .http 503 none payload⟩, ⟨0, authOk, .http 503 none payload⟩,
        ⟨0, authOk, .http 503 none payload⟩, ⟨0, authOk, .http 200 none payload⟩]
        initialTokenState 0).result = .ok payload ∧
     (request 3 [⟨0, authOk, .http 503 none payload⟩, ⟨0, authOk, .http 503 none payload⟩,
        ⟨0, authOk, .http 503 none payload⟩, ⟨0, authOk, .http 200 none payload⟩]
        initialTokenState 0).warns = 3) ∧
    ((request 3 [⟨0, authOk, .http 503 none payload⟩, ⟨0, authOk, .http 503 none payload⟩,
        ⟨0, authOk, .http 503 none payload⟩, ⟨0, authOk, .http 503 none payload⟩]
        initialTokenState 0).result = .error (.api 503) ∧
     (request 3 [⟨0, authOk, .http 503 none payload⟩, ⟨0, authOk, .http 503 none payload⟩,
        ⟨0, authOk, .http 503 none payload⟩, ⟨0, authOk, .http 503 none payload⟩]
        initialTokenState 0).attemptsUsed = 4) :=
  ⟨⟨rfl, rfl⟩, rfl, rfl⟩

/-- C5 counterexample: the claim says every timeout attempt sleeps
`base * 2^attempt` before its retry, but an attempt 0 timeout followed by a
200 is retried and succeeds with an empty backoff-sleep list — the timeout
branch in `request` retries immediately with no sleep. -/
theorem timeout_retry_no_sleep_counterexample :
    (request 3 [⟨0, authOk, .timeout⟩, ⟨0, authOk, .http 200 none (42 : Nat)⟩]
      initialTokenState 0).result = .ok 42 ∧
    (request 3 [⟨0, authOk, .timeout⟩, ⟨0, authOk, .http 200 none (42 : Nat)⟩]
      initialTokenState 0).sleeps = [] :=
  ⟨rfl, rfl⟩

/-- C5 (amended): a network-error attempt follows the 5xx policy — it sleeps
`1000 * 2^attempt` and retries while `attempt < maxRetries`, rethrowing the
raw error on exhaustion; a timeout attempt is likewise retried while
`attempt < maxRetries` and surfaces `ApiError 408` on exhaustion, but it
retries immediately, recording no backoff sleep. -/
theorem transient_retry_policy {α : Type} (mr rc : Nat) (st st1 : TokenState)
    (tok : String) (n : Nat) (rest : List (Attempt α)) (now : Int) (r : AuthResponse)
    (msg : String) (hga : getAccessToken st now r = .ok (tok, st1, n)) :
    (rc < mr →
      request mr (⟨now, r, .timeout⟩ :: rest) st rc =
        ⟨(request mr rest st1 (rc + 1)).result, (request mr rest st1 (rc + 1)).finalState,
         (request mr rest st1 (rc + 1)).warns + 1, (request mr rest st1 (rc + 1)).sleeps,
         (request mr rest st1 (rc + 1)).attemptsUsed + 1⟩ ∧
      request mr (⟨now, r, .netError msg⟩ :: rest) st rc =
        ⟨(request mr rest st1 (rc + 1)).result, (request mr rest st1 (rc + 1)).finalState,
         (request mr rest st1 (rc + 1)).warns + 1,
         1000 * 2 ^ rc :: (request mr rest st1 (rc + 1)).sleeps,
         (request mr rest st1 (rc + 1)).attemptsUsed + 1⟩) ∧
    (mr ≤ rc →
      request mr (⟨now, r, .timeout⟩ :: rest) st rc = ⟨.error (.api 408), st1, 0, [], 1⟩ ∧
      request mr (⟨now, r, .netError msg⟩ :: rest) st rc =
        ⟨.error (.network msg), st1, 0, [], 1⟩) := by
  constructor
  · intro h
    constructor
    · simp [request, hga, h]
    · simp [request, hga, h]
  · intro h
    have h2 : ¬ rc < mr := by omega
    constructor
    · simp [request, hga, h2]
    · simp [request, hga, h2]

theorem transient_retry_policy_witness :
    request 3 ([⟨0, authOk, .timeout⟩] : List (Attempt Nat)) initialTokenState 0 =
      ⟨.error .noResponse, authedState, 1, [], 1⟩ ∧
    request 3 ([⟨0, authOk, .netError "ECONNRESET"⟩] : List (Attempt Nat)) initialTokenState 0 =
      ⟨.error .noResponse, authedState, 1, [1000], 1⟩ ∧
    request 3 ([⟨0, authOk, .timeout⟩] : List (Attempt Nat)) initialTokenState 3 =
      ⟨.error (.api 408), authedState, 0, [], 1⟩ := by
  have h := transient_retry_policy 3 0 initialTokenState authedState "token" 1
    ([] : List (Attempt Nat)) 0 authOk "ECONNRESET" rfl
  have h2 := transient_retry_policy 3 3 initialTokenState authedState "token" 1
    ([] : List (Attempt Nat)) 0 authOk "ECONNRESET" rfl
  exact ⟨(h.1 (by omega)).1, (h.1 (by omega)).2, (h2.2 (by omega)).1⟩

/-- C7: every 401 response clears the cached token and expiry (the state
passed to the retry, and the final state on failure, is the cleared
`initialTokenState`, which forces a fresh authentication exchange on the next
attempt); the retry happens only while `retryCount < 2`, all retry causes
counting towards that cap, so 401-driven retries are capped at 2 in total —
three consecutive 401s from a fresh client surface `ApiError 401` after
exactly 2 retries (3 fetches). -/
theorem auth_retry_cap {α : Type} (mr rc : Nat) (st st1 : TokenState) (tok : String)
    (n : Nat) (rest : List (Attempt α)) (now : Int) (r : AuthResponse) (j : α)
    (hga : getAccessToken st now r = .ok (tok, st1, n)) :
    (rc < 2 →
      request mr (⟨now, r, .http 401 none j⟩ :: rest) st rc =
        ⟨(request mr rest initialTokenState (rc + 1)).result,
         (request mr rest initialTokenState (rc + 1)).finalState,
         (request mr rest initialTokenState (rc + 1)).warns + 1,
         (request mr rest initialTokenState (rc + 1)).sleeps,
         (request mr rest initialTokenState (rc + 1)).attemptsUsed + 1⟩) ∧
    (2 ≤ rc →
      request mr (⟨now, r, .http 401 none j⟩ :: rest) st rc =
        ⟨.error (.api 401), initialTokenState, 0, [], 1⟩) ∧
    ((request mr (⟨0, authOk, .http 401 none j⟩ :: ⟨0, authOk, .http 401 none j⟩ ::
        ⟨0, authOk, .http 401 none j⟩ :: rest) initialTokenState 0).result =
      .error (.api 401) ∧
     (request mr (⟨0, authOk, .http 401 none j⟩ :: ⟨0, authOk, .http 401 none j⟩ ::
        ⟨0, authOk, .http 401 none j⟩ :: rest) initialTokenState 0).attemptsUsed = 3) := by
  refine ⟨?_, ?_, rfl, rfl⟩
  · intro h
    simp [request, hga, h]
  · intro h
    have h2 : ¬ rc < 2 := by omega
    simp [request, hga, h2]

theorem auth_retry_cap_witness :
    request 3 [⟨0, authOk, .http 401 none (7 : Nat)⟩] initialTokenState 0 =
      ⟨.error .noResponse, initialTokenState, 1, [], 1⟩ ∧
    request 3 [⟨0, authOk, .http 401 none (7 : Nat)⟩] initialTokenState 2 =
      ⟨.error (.api 401), initialTokenState, 0, [], 1⟩ := by
  have h := auth_retry_cap 3 0 initialTokenState authedState "token" 1
    ([] : List (Attempt Nat)) 0 authOk (7 : Nat) rfl
  have h2 := auth_retry_cap 3 2 initialTokenState authedState "token" 1
    ([] : List (Attempt Nat)) 0 authOk (7 : Nat) rfl
  exact ⟨h.1 (by omega), h2.2.1 (by omega)⟩

end Mixoads
